import Mathlib

/-!
Shallow embedding of `src/scripts/parse_log.py` (the Worn log parser).

Lines are lists of characters / strings; Python's fallible operations
(`datetime.fromisoformat`, list indexing) are embedded into `Option`.
A `none` result of `parse_log` models an uncaught Python exception
aborting the whole file.
-/

/-- Calendar date-time with optional UTC offset (minutes); mirrors an
offset-aware or naive Python `datetime`. -/
structure DateTime where
  year : Nat
  month : Nat
  day : Nat
  hour : Nat
  minute : Nat
  second : Nat
  microsecond : Nat
  offsetMinutes : Option Int
deriving DecidableEq

/-- Numeric value of a list of decimal digit characters. -/
def natOfDigits (ds : List Char) : Nat :=
  ds.foldl (fun n c => n * 10 + (c.toNat - Char.toNat '0')) 0

/-- Read exactly `k` decimal digits from the front of `cs`. -/
def readFixed (k : Nat) (cs : List Char) : Option (Nat × List Char) :=
  let ds := cs.take k
  if ds.length = k ∧ ds.all Char.isDigit then some (natOfDigits ds, cs.drop k) else none

/-- Consume one expected character. -/
def expectChar (c : Char) : List Char → Option (List Char)
  | x :: rest => if x = c then some rest else none
  | [] => none

def isLeapYear (y : Nat) : Bool :=
  y % 4 = 0 && (y % 100 ≠ 0 || y % 400 = 0)

def daysInMonth (y m : Nat) : Nat :=
  if m = 2 then (if isLeapYear y then 29 else 28)
  else if m = 4 ∨ m = 6 ∨ m = 9 ∨ m = 11 then 30
  else 31

/-- Parse the `YYYY-MM-DD` date part, validating calendar ranges as
CPython's `datetime` constructor does. -/
def parseDate (cs : List Char) : Option (Nat × Nat × Nat × List Char) := do
  let (y, r) ← readFixed 4 cs
  let r ← expectChar '-' r
  let (m, r) ← readFixed 2 r
  let r ← expectChar '-' r
  let (d, r) ← readFixed 2 r
  if 1 ≤ y ∧ 1 ≤ m ∧ m ≤ 12 ∧ 1 ≤ d ∧ d ≤ daysInMonth y m then some (y, m, d, r)
  else none

/-- Fractional-second part after the dot: exactly 3 or 6 digits
(the pre-3.11 `fromisoformat` rule), yielding microseconds. -/
def parseFrac (cs : List Char) : Option (Nat × List Char) :=
  let ds := cs.takeWhile Char.isDigit
  if ds.length = 3 then some (natOfDigits ds * 1000, cs.drop 3)
  else if ds.length = 6 then some (natOfDigits ds, cs.drop 6)
  else none

/-- Numeric `±HH:MM` offset, or no offset (naive datetime). -/
def parseOffset (cs : List Char) : Option (Option Int × List Char) :=
  match cs with
  | [] => some (none, [])
  | '+' :: r => do
    let (h, r) ← readFixed 2 r
    let r ← expectChar ':' r
    let (m, r) ← readFixed 2 r
    if h ≤ 23 ∧ m ≤ 59 then some (some ((h * 60 + m : Nat) : Int), r) else none
  | '-' :: r => do
    let (h, r) ← readFixed 2 r
    let r ← expectChar ':' r
    let (m, r) ← readFixed 2 r
    if h ≤ 23 ∧ m ≤ 59 then some (some (-((h * 60 + m : Nat) : Int)), r) else none
  | _ => none

/-- `HH:MM:SS[.fff|.ffffff][±HH:MM]` time part, consuming all input. -/
def parseTimePart (cs : List Char) : Option (Nat × Nat × Nat × Nat × Option Int) := do
  let (hh, r) ← readFixed 2 cs
  let r ← expectChar ':' r
  let (mi, r) ← readFixed 2 r
  let r ← expectChar ':' r
  let (ss, r) ← readFixed 2 r
  let (us, r) ←
    match r with
    | '.' :: r2 => parseFrac r2
    | _ => some (0, r)
  let (off, r) ← parseOffset r
  if r = [] ∧ hh ≤ 23 ∧ mi ≤ 59 ∧ ss ≤ 59 then some (hh, mi, ss, us, off) else none

/-- Model of CPython `datetime.fromisoformat` (pre-3.11) on the grammar this
log format uses: `YYYY-MM-DD` optionally followed by a one-character
separator and `HH:MM:SS[.fff|.ffffff][±HH:MM]`.  Failure (`none`) models
the `ValueError` raise. -/
def fromisoformat (cs : List Char) : Option DateTime := do
  let (y, m, d, r) ← parseDate cs
  match r with
  | [] => some ⟨y, m, d, 0, 0, 0, 0, none⟩
  | _sep :: tr => do
    let (hh, mi, ss, us, off) ← parseTimePart tr
    some ⟨y, m, d, hh, mi, ss, us, off⟩

/-- Embedding of `_parse_timestamp`: a trailing `'Z'` is rewritten to
`"+00:00"` before the generic ISO parse. -/
def parse_timestamp (cs : List Char) : Option DateTime :=
  if cs.getLast? = some 'Z' then fromisoformat (cs.dropLast ++ ('+' :: '0' :: '0' :: ':' :: '0' :: '0' :: []))
  else fromisoformat cs

/-- Days since 1970-01-01 of a civil date (standard civil-from-days inverse). -/
def daysFromCivil (y m d : Nat) : Int :=
  let yy : Int := (y : Int) - (if m ≤ 2 then 1 else 0)
  let era : Int := (if 0 ≤ yy then yy else yy - 399) / 400
  let yoe : Int := yy - era * 400
  let mp : Int := ((m : Int) + 9) % 12
  let doy : Int := (153 * mp + 2) / 5 + (d : Int) - 1
  let doe : Int := yoe * 365 + yoe / 4 - yoe / 100 + doy
  era * 146097 + doe - 719468

/-- The absolute instant (microseconds since the epoch) an offset-aware
datetime denotes; `none` for naive datetimes. -/
def toInstantMicros (dt : DateTime) : Option Int :=
  dt.offsetMinutes.map fun off =>
    daysFromCivil dt.year dt.month dt.day * 86400000000 +
      ((dt.hour * 3600 + dt.minute * 60 + dt.second : Nat) : Int) * 1000000 +
      (dt.microsecond : Int) - off * 60000000

/-- Embedding of Python `line.rstrip("\n\r")`. -/
def rstripNL (s : String) : String :=
  ⟨(s.data.reverse.dropWhile (fun c => c = '\n' ∨ c = '\r')).reverse⟩

/-- Python `str.split` on a single separator character, keeping empties
(`"".split(sep) == [""]`). -/
def splitOnChar (sep : Char) : List Char → List (List Char)
  | [] => [[]]
  | c :: rest =>
    let gs := splitOnChar sep rest
    if c = sep then [] :: gs
    else
      match gs with
      | [] => [[c]]
      | g :: gs2 => (c :: g) :: gs2

/-- Embedding of `line.split("\t")`. -/
def splitTab (s : String) : List String :=
  (splitOnChar '\t' s.data).map fun cs => ⟨cs⟩

/-- Embedding of Python `field.startswith(pre)`. -/
def startsWith (pre s : String) : Bool :=
  pre.data.isPrefixOf s.data

/-- Embedding of `field.split("=", 1)[1]`: everything after the first `'='`. -/
def afterEq (s : String) : String :=
  ⟨(s.data.dropWhile (fun c => c ≠ '=')).tail⟩

/-- Embedding of `_parse_quoted_string`: the substring between the first
pair of double quotes, or the whole string when no such pair exists
(`re.search` with pattern quote, non-quote chars, quote). -/
def parse_quoted_string (s : String) : String :=
  match s.data.dropWhile (fun c => c ≠ '"') with
  | [] => s
  | _ :: rest => if rest.contains '"' then ⟨rest.takeWhile (fun c => c ≠ '"')⟩ else s

/-- Embedding of `_parse_key_value`: split on the first `'='` (a field with
no `'='` is its own key and value), stripping one layer of surrounding
double quotes from the value. -/
def parse_key_value (field : String) : String × String :=
  if field.data.contains '=' then
    let key : String := ⟨field.data.takeWhile (fun c => c ≠ '=')⟩
    let v := (field.data.dropWhile (fun c => c ≠ '=')).tail
    let v := if v.head? = some '"' ∧ v.getLast? = some '"' then v.tail.dropLast else v
    (key, ⟨v⟩)
  else (field, field)

/-- Result of `_parse_single_time_window`. -/
structure SingleWindow where
  start_time : Option DateTime
  start_earliest : Option DateTime
  start_latest : Option DateTime
deriving DecidableEq

/-- One loop iteration of `_parse_single_time_window`; `none` models an
uncaught `ValueError` from an `earliest=`/`latest=` value. -/
def single_step (acc : SingleWindow) (field : String) : Option SingleWindow :=
  if startsWith "earliest=" field then
    (parse_timestamp (afterEq field).data).map fun ts => { acc with start_earliest := some ts }
  else if startsWith "latest=" field then
    (parse_timestamp (afterEq field).data).map fun ts => { acc with start_latest := some ts }
  else if field ≠ "" ∧ ¬ field.data.contains '=' then
    match parse_timestamp field.data with
    | some ts => some { acc with start_time := some ts }
    | none => some acc
  else some acc

/-- Embedding of `_parse_single_time_window`. -/
def parse_single_time_window (fields : List String) : Option SingleWindow :=
  fields.foldlM single_step ⟨none, none, none⟩

/-- Loop state of `_parse_dual_time_windows`. -/
structure DualState where
  start_earliest : Option DateTime
  start_latest : Option DateTime
  stop_earliest : Option DateTime
  stop_latest : Option DateTime
  seen_start_window : Bool
  bare_timestamps : List DateTime
deriving DecidableEq

/-- One loop iteration of `_parse_dual_time_windows`. -/
def dual_step (st : DualState) (field : String) : Option DualState :=
  if startsWith "earliest=" field then
    (parse_timestamp (afterEq field).data).map fun ts =>
      if st.seen_start_window = false ∧ st.start_earliest = none then
        { st with start_earliest := some ts }
      else { st with stop_earliest := some ts }
  else if startsWith "latest=" field then
    (parse_timestamp (afterEq field).data).map fun ts =>
      if st.seen_start_window = false ∧ st.start_latest = none then
        { st with start_latest := some ts, seen_start_window := true }
      else { st with stop_latest := some ts }
  else if field ≠ "" ∧ ¬ field.data.contains '=' then
    match parse_timestamp field.data with
    | some ts => some { st with bare_timestamps := st.bare_timestamps ++ [ts] }
    | none => some st
  else some st

/-- Result of `_parse_dual_time_windows`. -/
structure DualWindow where
  start_time : Option DateTime
  start_earliest : Option DateTime
  start_latest : Option DateTime
  stop_time : Option DateTime
  stop_earliest : Option DateTime
  stop_latest : Option DateTime
deriving DecidableEq

/-- Embedding of `_parse_dual_time_windows`: scan, then assign the first
two bare timestamps to start/stop. -/
def parse_dual_time_windows (fields : List String) : Option DualWindow :=
  (fields.foldlM dual_step ⟨none, none, none, none, false, []⟩).map fun st =>
    ⟨st.bare_timestamps.get? 0, st.start_earliest, st.start_latest,
     st.bare_timestamps.get? 1, st.stop_earliest, st.stop_latest⟩

/-- One output row (the per-line dict built by `parse_log`). -/
structure Row where
  log_time : DateTime
  event_type : String
  id : Option String
  name : Option String
  device_type : Option String
  status : Option String
  location : Option String
  serial_number : Option String
  power : Option String
  event_subtype : Option String
  effective_time : Option DateTime
  start_time : Option DateTime
  start_earliest : Option DateTime
  start_latest : Option DateTime
  stop_time : Option DateTime
  stop_earliest : Option DateTime
  stop_latest : Option DateTime
  note : Option String
  tracking_state : Option String
deriving DecidableEq

/-- The all-`None` row template with `log_time`/`event_type` filled. -/
def blankRow (lt : DateTime) (et : String) : Row :=
  ⟨lt, et, none, none, none, none, none, none, none, none, none,
   none, none, none, none, none, none, none, none⟩

/-- One loop iteration of `_parse_device_added` (dict update folded
directly into the row). -/
def device_added_step (row : Row) (field : String) : Row :=
  let kv := parse_key_value field
  if kv.1 = "name" then { row with name := some (parse_quoted_string field) }
  else if kv.1 = "type" then { row with device_type := some kv.2 }
  else if kv.1 = "status" then { row with status := some kv.2 }
  else if kv.1 = "location" then { row with location := some kv.2 }
  else if kv.1 = "sn" then
    { row with serial_number := if kv.2 = "none" then none else some kv.2 }
  else if kv.1 = "power" then { row with power := some kv.2 }
  else row

/-- One loop iteration of `_parse_device_updated`; the `effective=` branch
parses a mandatory timestamp, whose failure aborts (`none`). -/
def device_updated_step (row : Row) (field : String) : Option Row :=
  let kv := parse_key_value field
  if kv.1 = "name" then some { row with name := some (parse_quoted_string field) }
  else if kv.1 = "type" then some { row with device_type := some kv.2 }
  else if kv.1 = "status" then some { row with status := some kv.2 }
  else if kv.1 = "location" then some { row with location := some kv.2 }
  else if kv.1 = "sn" then
    some { row with serial_number := if kv.2 = "none" then none else some kv.2 }
  else if kv.1 = "power" then some { row with power := some kv.2 }
  else if kv.1 = "effective" then
    (parse_timestamp kv.2.data).map fun ts => { row with effective_time := some ts }
  else some row

/-- The per-event-type dispatch (`if/elif` chain of `parse_log`), applied
to the blank row; `none` models an uncaught exception (index error or
timestamp `ValueError`). -/
def dispatch (row0 : Row) (f1 : String) (fields : List String) : Option Row :=
  if f1 = "DEVICE_ADDED" then
    match fields.get? 2 with
    | some i => some ((fields.drop 3).foldl device_added_step { row0 with id := some i })
    | none => none
  else if f1 = "DEVICE_UPDATED" then
    match fields.get? 2 with
    | none => none
    | some i =>
      match fields.get? 3 with
      | none => none
      | some f3 =>
        (fields.drop 4).foldlM device_updated_step
          { row0 with id := some i, name := some (parse_quoted_string f3) }
  else if f1 = "DEVICE_DELETED" then
    match fields.get? 2 with
    | none => none
    | some i =>
      match fields.get? 3 with
      | none => none
      | some f3 => some { row0 with id := some i, name := some (parse_quoted_string f3) }
  else if f1 = "DEVICE_NOTE" then
    match fields.get? 2 with
    | none => none
    | some i =>
      match fields.get? 3 with
      | none => none
      | some f3 => some { row0 with id := some i, name := some f3, note := fields.get? 4 }
  else if f1 = "ACTIVITY_NOTE" then
    match fields.get? 2 with
    | none => none
    | some i =>
      match fields.get? 3 with
      | none => none
      | some f3 => some { row0 with id := some i, name := some f3, note := fields.get? 4 }
  else if f1 = "GLOBAL_NOTE" then some { row0 with note := fields.get? 2 }
  else if f1 = "EVENT_STARTED" then
    match fields.get? 2 with
    | none => none
    | some i =>
      match fields.get? 3 with
      | none => none
      | some f3 =>
        (parse_single_time_window (fields.drop 4)).map fun w =>
          { row0 with
            id := some i
            event_subtype := some f3
            start_time := w.start_time
            start_earliest := w.start_earliest
            start_latest := w.start_latest }
  else if f1 = "EVENT_STOPPED" then
    match fields.get? 2 with
    | none => none
    | some i =>
      match fields.get? 3 with
      | none => none
      | some f3 =>
        (parse_dual_time_windows (fields.drop 4)).map fun w =>
          { row0 with
            id := some i
            event_subtype := some f3
            start_time := w.start_time
            start_earliest := w.start_earliest
            start_latest := w.start_latest
            stop_time := w.stop_time
            stop_earliest := w.stop_earliest
            stop_latest := w.stop_latest }
  else if f1 = "EVENT_CANCELLED" then
    match fields.get? 2 with
    | none => none
    | some i =>
      match fields.get? 3 with
      | none => none
      | some f3 => some { row0 with id := some i, event_subtype := some f3 }
  else if f1 = "EVENT_RETROACTIVE" then
    match fields.get? 2 with
    | none => none
    | some i =>
      match fields.get? 3 with
      | none => none
      | some f3 =>
        (parse_dual_time_windows (fields.drop 4)).map fun w =>
          { row0 with
            id := some i
            event_subtype := some f3
            start_time := w.start_time
            start_earliest := w.start_earliest
            start_latest := w.start_latest
            stop_time := w.stop_time
            stop_earliest := w.stop_earliest
            stop_latest := w.stop_latest }
  else if f1 = "GLOBAL_TRACKING" then
    match fields.get? 2 with
    | some t => some { row0 with tracking_state := some t }
    | none => none
  else some row0

/-- The per-line body of `parse_log`: mandatory `log_time` parse of
`fields[0]`, event tag from `fields[1]`, then dispatch. -/
def parse_line (fields : List String) : Option Row :=
  match fields.get? 0 with
  | none => none
  | some f0 =>
    match fields.get? 1 with
    | none => none
    | some f1 =>
      match parse_timestamp f0.data with
      | none => none
      | some lt => dispatch (blankRow lt f1) f1 fields

/-- Embedding of `parse_log` over the file's lines: strip trailing
newline characters, skip blank and short lines, parse the rest in order;
`none` models an uncaught exception aborting the whole file. -/
def parse_log : List String → Option (List Row)
  | [] => some []
  | l :: rest =>
    let s := rstripNL l
    if s = "" then parse_log rest
    else
      let fields := splitTab s
      if fields.length < 2 then parse_log rest
      else
        match parse_line fields, parse_log rest with
        | some row, some rows => some (row :: rows)
        | _, _ => none

/-! ## Generic helpers about `Option`-valued folds -/

theorem optFoldl_isSome {σ : Type} (step : σ → String → Option σ) (fields : List String)
    (h : ∀ st f, f ∈ fields → (step st f).isSome) :
    ∀ st, (List.foldlM step st fields).isSome := by
  induction fields with
  | nil => intro st; simp [List.foldlM]
  | cons f fs ih =>
    intro st
    rw [List.foldlM_cons]
    cases hstep : step st f with
    | none =>
      have := h st f (by simp)
      rw [hstep] at this
      simp at this
    | some st1 =>
      simpa using ih (fun st g hg => h st g (by simp [hg])) st1

theorem optFoldl_none_of_mem {σ : Type} (step : σ → String → Option σ) (fields : List String)
    (f : String) (hf : f ∈ fields) (hnone : ∀ st, step st f = none) :
    ∀ st, List.foldlM step st fields = none := by
  induction fields with
  | nil => cases hf
  | cons g gs ih =>
    intro st
    rw [List.foldlM_cons]
    rcases List.mem_cons.mp hf with hfg | hmem
    · subst hfg; rw [hnone st]; rfl
    · cases hstep : step st g with
      | none => rfl
      | some st1 => simpa using ih hmem st1

/-! ## C1: error handling of time-window fields -/

/-- A tail field in keyed window position (`earliest=` / `latest=`) whose
value does not parse as a timestamp. -/
def badWindowKey (f : String) : Bool :=
  (startsWith "earliest=" f || startsWith "latest=" f) &&
    (parse_timestamp (afterEq f).data).isNone

theorem single_step_isSome (st : SingleWindow) (f : String) (hb : badWindowKey f = false) :
    (single_step st f).isSome := by
  unfold badWindowKey at hb
  unfold single_step
  by_cases h1 : startsWith "earliest=" f = true
  · rw [if_pos h1]
    simp only [h1, Bool.true_or, Bool.true_and] at hb
    cases hts : parse_timestamp (afterEq f).data
    · rw [hts] at hb; simp at hb
    · rfl
  · rw [if_neg h1]
    by_cases h2 : startsWith "latest=" f = true
    · rw [if_pos h2]
      simp only [h2, Bool.or_true, Bool.true_and] at hb
      cases hts : parse_timestamp (afterEq f).data
      · rw [hts] at hb; simp at hb
      · rfl
    · rw [if_neg h2]
      split_ifs with h3
      · cases parse_timestamp f.data <;> rfl
      · rfl

theorem dual_step_isSome (st : DualState) (f : String) (hb : badWindowKey f = false) :
    (dual_step st f).isSome := by
  unfold badWindowKey at hb
  unfold dual_step
  by_cases h1 : startsWith "earliest=" f = true
  · rw [if_pos h1]
    simp only [h1, Bool.true_or, Bool.true_and] at hb
    cases hts : parse_timestamp (afterEq f).data
    · rw [hts] at hb; simp at hb
    · rfl
  · rw [if_neg h1]
    by_cases h2 : startsWith "latest=" f = true
    · rw [if_pos h2]
      simp only [h2, Bool.or_true, Bool.true_and] at hb
      cases hts : parse_timestamp (afterEq f).data
      · rw [hts] at hb; simp at hb
      · rfl
    · rw [if_neg h2]
      split_ifs with h3
      · cases parse_timestamp f.data <;> rfl
      · rfl

theorem single_step_none (st : SingleWindow) (f : String) (hb : badWindowKey f = true) :
    single_step st f = none := by
  unfold badWindowKey at hb
  rw [Bool.and_eq_true, Bool.or_eq_true] at hb
  obtain ⟨hpre, hts⟩ := hb
  have hts2 : parse_timestamp (afterEq f).data = none := by
    cases h : parse_timestamp (afterEq f).data
    · rfl
    · rw [h] at hts; simp at hts
  unfold single_step
  rcases hpre with h1 | h2
  · rw [if_pos h1, hts2]; rfl
  · by_cases h1 : startsWith "earliest=" f = true
    · rw [if_pos h1, hts2]; rfl
    · rw [if_neg h1, if_pos h2, hts2]; rfl

theorem dual_step_none (st : DualState) (f : String) (hb : badWindowKey f = true) :
    dual_step st f = none := by
  unfold badWindowKey at hb
  rw [Bool.and_eq_true, Bool.or_eq_true] at hb
  obtain ⟨hpre, hts⟩ := hb
  have hts2 : parse_timestamp (afterEq f).data = none := by
    cases h : parse_timestamp (afterEq f).data
    · rfl
    · rw [h] at hts; simp at hts
  unfold dual_step
  rcases hpre with h1 | h2
  · rw [if_pos h1, hts2]; rfl
  · by_cases h1 : startsWith "earliest=" f = true
    · rw [if_pos h1, hts2]; rfl
    · rw [if_neg h1, if_pos h2, hts2]; rfl

/-- C1 (counterexample): a keyed window field whose value does not parse as
a timestamp is NOT suppressed: both resolvers fail, and an EVENT_STARTED
line with such a field aborts the whole file (no record is produced),
contrary to the claim that the field is treated as absent and parsing
continues. -/
theorem c1_counterexample :
    parse_single_time_window ["earliest=garbage"] = none ∧
    parse_dual_time_windows ["latest=garbage"] = none ∧
    parse_log ["2024-01-15T10:30:00.000Z\tEVENT_STARTED\tuu\trun\tearliest=garbage"] = none := by
  refine ⟨by decide, by decide, by decide⟩

/-- C1 (amended): only the bare (non-`earliest=`/`latest=`) single-window
fields have their timestamp-parse failures suppressed — the step leaves the
state unchanged and scanning continues; an `earliest=`/`latest=` field
whose value fails to parse makes both window resolvers fail, and a field
list all of whose keyed window values parse resolves successfully. -/
theorem c1_amended :
    (∀ (stS : SingleWindow) (stD : DualState) (f : String),
       startsWith "earliest=" f = false → startsWith "latest=" f = false →
       parse_timestamp f.data = none →
       single_step stS f = some stS ∧ dual_step stD f = some stD) ∧
    (∀ fields : List String, (∀ f ∈ fields, badWindowKey f = false) →
       (parse_single_time_window fields).isSome ∧ (parse_dual_time_windows fields).isSome) ∧
    (∀ (fields : List String) (f : String), f ∈ fields → badWindowKey f = true →
       parse_single_time_window fields = none ∧ parse_dual_time_windows fields = none) := by
  refine ⟨?_, ?_, ?_⟩
  · intro stS stD f h1 h2 hts
    constructor
    · unfold single_step
      rw [if_neg (by simp [h1]), if_neg (by simp [h2])]
      split_ifs with h3
      · rw [hts]
      · rfl
    · unfold dual_step
      rw [if_neg (by simp [h1]), if_neg (by simp [h2])]
      split_ifs with h3
      · rw [hts]
      · rfl
  · intro fields h
    constructor
    · exact optFoldl_isSome single_step fields
        (fun st f hf => single_step_isSome st f (h f hf)) _
    · unfold parse_dual_time_windows
      have hs := optFoldl_isSome dual_step fields
        (fun st f hf => dual_step_isSome st f (h f hf)) ⟨none, none, none, none, false, []⟩
      cases hfold : List.foldlM dual_step ⟨none, none, none, none, false, []⟩ fields
      · rw [hfold] at hs; simp at hs
      · rfl
  · intro fields f hf hb
    constructor
    · exact optFoldl_none_of_mem single_step fields f hf
        (fun st => single_step_none st f hb) _
    · unfold parse_dual_time_windows
      rw [optFoldl_none_of_mem dual_step fields f hf (fun st => dual_step_none st f hb) _]
      rfl

/-- C1 (witness): the amended theorem applied at a concrete bad
`latest=` field. -/
theorem c1_witness :
    parse_single_time_window ["latest=nope"] = none ∧
    parse_dual_time_windows ["latest=nope"] = none :=
  c1_amended.2.2 ["latest=nope"] "latest=nope" (by decide) (by decide)

/-! ## C3: `Z` suffix is equivalent to `+00:00` -/

/-- C3: appending the literal suffix `Z` to any text decodes exactly as
appending `+00:00`; on the concrete pair from the spec both decode to the
same offset-aware datetime (hour 15, minute 30, zero offset, millisecond
precision kept) and hence to the same absolute instant. -/
theorem c3_z_equiv_offset :
    (∀ t : List Char, parse_timestamp (t ++ ['Z']) = parse_timestamp (t ++ "+00:00".data)) ∧
    parse_timestamp "2024-01-15T15:30:00.000Z".data =
      some ⟨2024, 1, 15, 15, 30, 0, 0, some 0⟩ ∧
    parse_timestamp "2024-01-15T15:30:00.000+00:00".data =
      some ⟨2024, 1, 15, 15, 30, 0, 0, some 0⟩ ∧
    (parse_timestamp "2024-01-15T15:30:00.000Z".data).bind toInstantMicros =
      some 1705332600000000 ∧
    (parse_timestamp "2024-01-15T15:30:00.000+00:00".data).bind toInstantMicros =
      some 1705332600000000 := by
  refine ⟨?_, by decide, by decide, by decide, by decide⟩
  intro t
  have hz : (t ++ ['Z']).getLast? = some 'Z' := List.getLast?_concat t
  have hp : (t ++ "+00:00".data).getLast? = some '0' := by
    rw [List.getLast?_append]; rfl
  rw [parse_timestamp, parse_timestamp, if_pos hz, if_neg (by rw [hp]; decide),
    List.dropLast_concat]

/-! ## C10: determinism -/

/-- C10: parsing is deterministic — two runs of `parse_log` on the same
line list give the same result. -/
theorem c10_deterministic (ls : List String) (r1 r2 : Option (List Row))
    (h1 : parse_log ls = r1) (h2 : parse_log ls = r2) : r1 = r2 :=
  h1.symm.trans h2

/-- C10 (witness): the determinism theorem applied to the empty file. -/
theorem c10_witness : (some [] : Option (List Row)) = some [] :=
  c10_deterministic [] (some []) (some []) rfl rfl

/-! ## C6: line skipping and order preservation -/

/-- The skip test of the `parse_log` loop: `none` for a line that is blank
after stripping trailing newlines or has fewer than 2 tab fields, otherwise
the line's field list. -/
def keptFields (l : String) : Option (List String) :=
  if rstripNL l = "" then none
  else if (splitTab (rstripNL l)).length < 2 then none
  else some (splitTab (rstripNL l))

/-- Field lists of the non-skipped lines, in input order. -/
def keptFieldLists (ls : List String) : List (List String) :=
  ls.filterMap keptFields

theorem parse_log_eq_mapM (ls : List String) :
    parse_log ls = List.mapM parse_line (keptFieldLists ls) := by
  induction ls with
  | nil => rfl
  | cons l rest ih =>
    by_cases h1 : rstripNL l = ""
    · simp only [keptFieldLists, List.filterMap_cons]
      rw [show keptFields l = none from by unfold keptFields; rw [if_pos h1]]
      simp only [parse_log]
      rw [if_pos h1]
      exact ih
    · by_cases h2 : (splitTab (rstripNL l)).length < 2
      · simp only [keptFieldLists, List.filterMap_cons]
        rw [show keptFields l = none from by unfold keptFields; rw [if_neg h1, if_pos h2]]
        simp only [parse_log]
        rw [if_neg h1, if_pos h2]
        exact ih
      · simp only [keptFieldLists, List.filterMap_cons]
        rw [show keptFields l = some (splitTab (rstripNL l)) from by
          unfold keptFields; rw [if_neg h1, if_neg h2]]
        simp only [parse_log]
        rw [if_neg h1, if_neg h2, List.mapM_cons, ih]
        simp only [keptFieldLists]
        cases hp : parse_line (splitTab (rstripNL l)) <;>
          cases hq : List.mapM parse_line (List.filterMap keptFields rest) <;> rfl

/-- C6: whenever parsing succeeds, the record list is exactly the in-order
image of the non-skipped lines under the per-line parser — blank and
sub-2-field lines contribute no record, every other line exactly one, and
order is preserved — and the empty file parses to zero records. -/
theorem c6_skip_and_order (ls : List String) (rs : List Row)
    (h : parse_log ls = some rs) :
    List.mapM parse_line (keptFieldLists ls) = some rs ∧
      parse_log ([] : List String) = some [] :=
  ⟨(parse_log_eq_mapM ls).symm.trans h, rfl⟩

/-- C6 (witness): the skipping theorem applied to a concrete three-line
file (one kept line, one blank line, one single-field line). -/
theorem c6_witness :
    List.mapM parse_line
        (keptFieldLists ["2024-01-15T18:00:00.000-05:00\tGLOBAL_TRACKING\toff", "", "stray"]) =
      some [{ blankRow ⟨2024, 1, 15, 18, 0, 0, 0, some (-300)⟩ "GLOBAL_TRACKING" with
                tracking_state := some "off" }] ∧
      parse_log ([] : List String) = some [] :=
  c6_skip_and_order _ _ (by decide)

/-! ## C5: unrecognized event tags -/

/-- The eleven event-type tags the dispatcher recognizes. -/
def recognizedTag (et : String) : Bool :=
  et == "DEVICE_ADDED" || et == "DEVICE_UPDATED" || et == "DEVICE_DELETED" ||
  et == "DEVICE_NOTE" || et == "ACTIVITY_NOTE" || et == "GLOBAL_NOTE" ||
  et == "EVENT_STARTED" || et == "EVENT_STOPPED" || et == "EVENT_CANCELLED" ||
  et == "EVENT_RETROACTIVE" || et == "GLOBAL_TRACKING"

/-- C5: a line whose tag is not one of the eleven recognized event types
parses to the row holding only `log_time` and `event_type` (every payload
field `none`), with no error, whatever the remaining fields are. -/
theorem c5_unrecognized_tag (fields : List String) (f0 f1 : String) (lt : DateTime)
    (h0 : fields.get? 0 = some f0) (h1 : fields.get? 1 = some f1)
    (hts : parse_timestamp f0.data = some lt) (hunk : recognizedTag f1 = false) :
    parse_line fields = some (blankRow lt f1) := by
  simp only [recognizedTag, Bool.or_eq_false_iff, beq_eq_false_iff_ne] at hunk
  obtain ⟨⟨⟨⟨⟨⟨⟨⟨⟨⟨n1, n2⟩, n3⟩, n4⟩, n5⟩, n6⟩, n7⟩, n8⟩, n9⟩, n10⟩, n11⟩ := hunk
  simp only [parse_line, h0, h1, hts]
  unfold dispatch
  rw [if_neg n1, if_neg n2, if_neg n3, if_neg n4, if_neg n5, if_neg n6, if_neg n7,
    if_neg n8, if_neg n9, if_neg n10, if_neg n11]

/-- C5 (witness): the unrecognized-tag theorem at a concrete line. -/
theorem c5_witness :
    parse_line ["2024-01-15T10:30:00.000Z", "SOMETHING_ELSE", "x", "y"] =
      some (blankRow ⟨2024, 1, 15, 10, 30, 0, 0, some 0⟩ "SOMETHING_ELSE") :=
  c5_unrecognized_tag ["2024-01-15T10:30:00.000Z", "SOMETHING_ELSE", "x", "y"]
    "2024-01-15T10:30:00.000Z" "SOMETHING_ELSE" ⟨2024, 1, 15, 10, 30, 0, 0, some 0⟩
    (by decide) (by decide) (by decide) (by decide)

/-! ## C4: id nullability -/

theorem device_added_step_id (r : Row) (f : String) :
    (device_added_step r f).id = r.id := by
  unfold device_added_step
  dsimp only
  split_ifs <;> rfl

theorem device_added_step_et (r : Row) (f : String) :
    (device_added_step r f).event_type = r.event_type := by
  unfold device_added_step
  dsimp only
  split_ifs <;> rfl

theorem foldl_added_id (fs : List String) :
    ∀ r : Row, (List.foldl device_added_step r fs).id = r.id := by
  induction fs with
  | nil => intro r; rfl
  | cons f fs ih => intro r; rw [List.foldl_cons, ih, device_added_step_id]

theorem foldl_added_et (fs : List String) :
    ∀ r : Row, (List.foldl device_added_step r fs).event_type = r.event_type := by
  induction fs with
  | nil => intro r; rfl
  | cons f fs ih => intro r; rw [List.foldl_cons, ih, device_added_step_et]

theorem device_updated_step_id (r r1 : Row) (f : String)
    (h : device_updated_step r f = some r1) : r1.id = r.id := by
  unfold device_updated_step at h
  dsimp only at h
  split_ifs at h
  all_goals try (simp only [Option.some.injEq] at h; subst h; rfl)
  cases hts : parse_timestamp (parse_key_value f).2.data with
  | none => rw [hts] at h; simp at h
  | some ts =>
    rw [hts] at h
    simp only [Option.map_some', Option.some.injEq] at h
    subst h; rfl

theorem device_updated_step_et (r r1 : Row) (f : String)
    (h : device_updated_step r f = some r1) : r1.event_type = r.event_type := by
  unfold device_updated_step at h
  dsimp only at h
  split_ifs at h
  all_goals try (simp only [Option.some.injEq] at h; subst h; rfl)
  cases hts : parse_timestamp (parse_key_value f).2.data with
  | none => rw [hts] at h; simp at h
  | some ts =>
    rw [hts] at h
    simp only [Option.map_some', Option.some.injEq] at h
    subst h; rfl

theorem foldlM_updated_id (fs : List String) :
    ∀ r r1 : Row, List.foldlM device_updated_step r fs = some r1 → r1.id = r.id := by
  induction fs with
  | nil =>
    intro r r1 h
    rw [List.foldlM_nil] at h
    exact congrArg Row.id (Option.some.inj h).symm
  | cons f fs ih =>
    intro r r1 h
    rw [List.foldlM_cons] at h
    cases hstep : device_updated_step r f with
    | none => rw [hstep] at h; simp at h
    | some r2 =>
      rw [hstep] at h
      have h2 : List.foldlM device_updated_step r2 fs = some r1 := h
      exact (ih r2 r1 h2).trans (device_updated_step_id r r2 f hstep)

theorem foldlM_updated_et (fs : List String) :
    ∀ r r1 : Row, List.foldlM device_updated_step r fs = some r1 →
      r1.event_type = r.event_type := by
  induction fs with
  | nil =>
    intro r r1 h
    rw [List.foldlM_nil] at h
    exact congrArg Row.event_type (Option.some.inj h).symm
  | cons f fs ih =>
    intro r r1 h
    rw [List.foldlM_cons] at h
    cases hstep : device_updated_step r f with
    | none => rw [hstep] at h; simp at h
    | some r2 =>
      rw [hstep] at h
      have h2 : List.foldlM device_updated_step r2 fs = some r1 := h
      exact (ih r2 r1 h2).trans (device_updated_step_et r r2 f hstep)

/-- The nine event tags that carry a subject id in `fields[2]`. -/
def idCarrying (et : String) : Bool :=
  et == "DEVICE_ADDED" || et == "DEVICE_UPDATED" || et == "DEVICE_DELETED" ||
  et == "DEVICE_NOTE" || et == "ACTIVITY_NOTE" || et == "EVENT_STARTED" ||
  et == "EVENT_STOPPED" || et == "EVENT_CANCELLED" || et == "EVENT_RETROACTIVE"

/-- C4: in every successfully parsed row, `id` is null exactly when the
event type carries no subject id (GLOBAL_NOTE, GLOBAL_TRACKING, or an
unrecognized tag), and for the nine id-carrying types `id` comes from
`fields[2]`. -/
theorem c4_id_nullability (fields : List String) (row : Row)
    (h : parse_line fields = some row) :
    (row.id = none ↔ idCarrying row.event_type = false) ∧
    (idCarrying row.event_type = true → row.id = fields.get? 2) := by
  unfold parse_line at h
  cases h0 : fields.get? 0 with
  | none => simp only [h0] at h; exact Option.noConfusion h
  | some f0 =>
  simp only [h0] at h
  cases h1 : fields.get? 1 with
  | none => simp only [h1] at h; exact Option.noConfusion h
  | some f1 =>
  simp only [h1] at h
  cases hts : parse_timestamp f0.data with
  | none => simp only [hts] at h; exact Option.noConfusion h
  | some lt =>
  simp only [hts] at h
  unfold dispatch at h
  by_cases e1 : f1 = "DEVICE_ADDED"
  · rw [if_pos e1] at h
    subst e1
    cases h2 : fields.get? 2 with
    | none => simp only [h2] at h; exact Option.noConfusion h
    | some i =>
      simp only [h2, Option.some.injEq] at h
      have hid : row.id = some i := by rw [← h, foldl_added_id]
      have het : idCarrying row.event_type = true := by rw [← h, foldl_added_et] <;> rfl
      refine ⟨⟨fun hh => ?_, fun hh => ?_⟩, fun _ => ?_⟩
      · rw [hid] at hh; exact Option.noConfusion hh
      · rw [het] at hh; exact Bool.noConfusion hh
      · exact hid
  rw [if_neg e1] at h
  by_cases e2 : f1 = "DEVICE_UPDATED"
  · rw [if_pos e2] at h
    subst e2
    cases h2 : fields.get? 2 with
    | none => simp only [h2] at h; exact Option.noConfusion h
    | some i =>
      simp only [h2] at h
      cases h3 : fields.get? 3 with
      | none => simp only [h3] at h; exact Option.noConfusion h
      | some f3 =>
        simp only [h3] at h
        have hid : row.id = some i := foldlM_updated_id _ _ _ h
        have het : idCarrying row.event_type = true := by
          rw [foldlM_updated_et _ _ _ h] <;> rfl
        refine ⟨⟨fun hh => ?_, fun hh => ?_⟩, fun _ => ?_⟩
        · rw [hid] at hh; exact Option.noConfusion hh
        · rw [het] at hh; exact Bool.noConfusion hh
        · exact hid
  rw [if_neg e2] at h
  by_cases e3 : f1 = "DEVICE_DELETED"
  · rw [if_pos e3] at h
    subst e3
    cases h2 : fields.get? 2 with
    | none => simp only [h2] at h; exact Option.noConfusion h
    | some i =>
      simp only [h2] at h
      cases h3 : fields.get? 3 with
      | none => simp only [h3] at h; exact Option.noConfusion h
      | some f3 =>
        simp only [h3, Option.some.injEq] at h
        have hid : row.id = some i := by rw [← h] <;> rfl
        have het : idCarrying row.event_type = true := by rw [← h] <;> rfl
        refine ⟨⟨fun hh => ?_, fun hh => ?_⟩, fun _ => ?_⟩
        · rw [hid] at hh; exact Option.noConfusion hh
        · rw [het] at hh; exact Bool.noConfusion hh
        · exact hid
  rw [if_neg e3] at h
  by_cases e4 : f1 = "DEVICE_NOTE"
  · rw [if_pos e4] at h
    subst e4
    cases h2 : fields.get? 2 with
    | none => simp only [h2] at h; exact Option.noConfusion h
    | some i =>
      simp only [h2] at h
      cases h3 : fields.get? 3 with
      | none => simp only [h3] at h; exact Option.noConfusion h
      | some f3 =>
        simp only [h3, Option.some.injEq] at h
        have hid : row.id = some i := by rw [← h] <;> rfl
        have het : idCarrying row.event_type = true := by rw [← h] <;> rfl
        refine ⟨⟨fun hh => ?_, fun hh => ?_⟩, fun _ => ?_⟩
        · rw [hid] at hh; exact Option.noConfusion hh
        · rw [het] at hh; exact Bool.noConfusion hh
        · exact hid
  rw [if_neg e4] at h
  by_cases e5 : f1 = "ACTIVITY_NOTE"
  · rw [if_pos e5] at h
    subst e5
    cases h2 : fields.get? 2 with
    | none => simp only [h2] at h; exact Option.noConfusion h
    | some i =>
      simp only [h2] at h
      cases h3 : fields.get? 3 with
      | none => simp only [h3] at h; exact Option.noConfusion h
      | some f3 =>
        simp only [h3, Option.some.injEq] at h
        have hid : row.id = some i := by rw [← h] <;> rfl
        have het : idCarrying row.event_type = true := by rw [← h] <;> rfl
        refine ⟨⟨fun hh => ?_, fun hh => ?_⟩, fun _ => ?_⟩
        · rw [hid] at hh; exact Option.noConfusion hh
        · rw [het] at hh; exact Bool.noConfusion hh
        · exact hid
  rw [if_neg e5] at h
  by_cases e6 : f1 = "GLOBAL_NOTE"
  · rw [if_pos e6] at h
    subst e6
    simp only [Option.some.injEq] at h
    have hid : row.id = none := by rw [← h] <;> rfl
    have het : idCarrying row.event_type = false := by rw [← h] <;> rfl
    refine ⟨⟨fun _ => het, fun _ => hid⟩, fun hh => ?_⟩
    · rw [het] at hh; exact Bool.noConfusion hh
  rw [if_neg e6] at h
  by_cases e7 : f1 = "EVENT_STARTED"
  · rw [if_pos e7] at h
    subst e7
    cases h2 : fields.get? 2 with
    | none => simp only [h2] at h; exact Option.noConfusion h
    | some i =>
      simp only [h2] at h
      cases h3 : fields.get? 3 with
      | none => simp only [h3] at h; exact Option.noConfusion h
      | some f3 =>
        simp only [h3] at h
        cases hw : parse_single_time_window (fields.drop 4) with
        | none => simp only [hw, Option.map_none'] at h; exact Option.noConfusion h
        | some w =>
          simp only [hw, Option.map_some', Option.some.injEq] at h
          have hid : row.id = some i := by rw [← h] <;> rfl
          have het : idCarrying row.event_type = true := by rw [← h] <;> rfl
          refine ⟨⟨fun hh => ?_, fun hh => ?_⟩, fun _ => ?_⟩
          · rw [hid] at hh; exact Option.noConfusion hh
          · rw [het] at hh; exact Bool.noConfusion hh
          · exact hid
  rw [if_neg e7] at h
  by_cases e8 : f1 = "EVENT_STOPPED"
  · rw [if_pos e8] at h
    subst e8
    cases h2 : fields.get? 2 with
    | none => simp only [h2] at h; exact Option.noConfusion h
    | some i =>
      simp only [h2] at h
      cases h3 : fields.get? 3 with
      | none => simp only [h3] at h; exact Option.noConfusion h
      | some f3 =>
        simp only [h3] at h
        cases hw : parse_dual_time_windows (fields.drop 4) with
        | none => simp only [hw, Option.map_none'] at h; exact Option.noConfusion h
        | some w =>
          simp only [hw, Option.map_some', Option.some.injEq] at h
          have hid : row.id = some i := by rw [← h] <;> rfl
          have het : idCarrying row.event_type = true := by rw [← h] <;> rfl
          refine ⟨⟨fun hh => ?_, fun hh => ?_⟩, fun _ => ?_⟩
          · rw [hid] at hh; exact Option.noConfusion hh
          · rw [het] at hh; exact Bool.noConfusion hh
          · exact hid
  rw [if_neg e8] at h
  by_cases e9 : f1 = "EVENT_CANCELLED"
  · rw [if_pos e9] at h
    subst e9
    cases h2 : fields.get? 2 with
    | none => simp only [h2] at h; exact Option.noConfusion h
    | some i =>
      simp only [h2] at h
      cases h3 : fields.get? 3 with
      | none => simp only [h3] at h; exact Option.noConfusion h
      | some f3 =>
        simp only [h3, Option.some.injEq] at h
        have hid : row.id = some i := by rw [← h] <;> rfl
        have het : idCarrying row.event_type = true := by rw [← h] <;> rfl
        refine ⟨⟨fun hh => ?_, fun hh => ?_⟩, fun _ => ?_⟩
        · rw [hid] at hh; exact Option.noConfusion hh
        · rw [het] at hh; exact Bool.noConfusion hh
        · exact hid
  rw [if_neg e9] at h
  by_cases e10 : f1 = "EVENT_RETROACTIVE"
  · rw [if_pos e10] at h
    subst e10
    cases h2 : fields.get? 2 with
    | none => simp only [h2] at h; exact Option.noConfusion h
    | some i =>
      simp only [h2] at h
      cases h3 : fields.get? 3 with
      | none => simp only [h3] at h; exact Option.noConfusion h
      | some f3 =>
        simp only [h3] at h
        cases hw : parse_dual_time_windows (fields.drop 4) with
        | none => simp only [hw, Option.map_none'] at h; exact Option.noConfusion h
        | some w =>
          simp only [hw, Option.map_some', Option.some.injEq] at h
          have hid : row.id = some i := by rw [← h] <;> rfl
          have het : idCarrying row.event_type = true := by rw [← h] <;> rfl
          refine ⟨⟨fun hh => ?_, fun hh => ?_⟩, fun _ => ?_⟩
          · rw [hid] at hh; exact Option.noConfusion hh
          · rw [het] at hh; exact Bool.noConfusion hh
          · exact hid
  rw [if_neg e10] at h
  by_cases e11 : f1 = "GLOBAL_TRACKING"
  · rw [if_pos e11] at h
    subst e11
    cases h2 : fields.get? 2 with
    | none => simp only [h2] at h; exact Option.noConfusion h
    | some t =>
      simp only [h2, Option.some.injEq] at h
      have hid : row.id = none := by rw [← h] <;> rfl
      have het : idCarrying row.event_type = false := by rw [← h] <;> rfl
      refine ⟨⟨fun _ => het, fun _ => hid⟩, fun hh => ?_⟩
      · rw [het] at hh; exact Bool.noConfusion hh
  rw [if_neg e11] at h
  simp only [Option.some.injEq] at h
  have hid : row.id = none := by rw [← h] <;> rfl
  have het : idCarrying row.event_type = false := by
    rw [← h]
    show idCarrying f1 = false
    simp only [idCarrying, Bool.or_eq_false_iff, beq_eq_false_iff_ne]
    exact ⟨⟨⟨⟨⟨⟨⟨⟨e1, e2⟩, e3⟩, e4⟩, e5⟩, e7⟩, e8⟩, e9⟩, e10⟩
  refine ⟨⟨fun _ => het, fun _ => hid⟩, fun hh => ?_⟩
  · rw [het] at hh; exact Bool.noConfusion hh

/-- C4 (witness): the id-nullability theorem at a concrete GLOBAL_NOTE
line. -/
theorem c4_witness :
    (((blankRow ⟨2024, 1, 15, 12, 0, 0, 0, some (-300)⟩ "GLOBAL_NOTE" : Row).id = none ↔
        idCarrying "GLOBAL_NOTE" = false) ∧
      (idCarrying "GLOBAL_NOTE" = true →
        (blankRow ⟨2024, 1, 15, 12, 0, 0, 0, some (-300)⟩ "GLOBAL_NOTE" : Row).id =
          ["2024-01-15T12:00:00.000-05:00", "GLOBAL_NOTE"].get? 2)) :=
  c4_id_nullability ["2024-01-15T12:00:00.000-05:00", "GLOBAL_NOTE"]
    (blankRow ⟨2024, 1, 15, 12, 0, 0, 0, some (-300)⟩ "GLOBAL_NOTE") (by decide)

/-! ## C2: the dual-window resolution algorithm -/

/-- The dual-window scan exactly as the claim states it, written as direct
recursion: thread the `seen_start_window` flag and the four window slots,
collect the parseable bare timestamps in order.  Second definition for
comparison against the code's `parse_dual_time_windows`. -/
def specDualScan :
    List String → Bool → Option DateTime → Option DateTime → Option DateTime →
      Option DateTime →
      Option ((Option DateTime × Option DateTime × Option DateTime × Option DateTime) ×
        List DateTime)
  | [], _, se, sl, pe, pl => some ((se, sl, pe, pl), [])
  | f :: rest, flag, se, sl, pe, pl =>
    if startsWith "earliest=" f then
      match parse_timestamp (afterEq f).data with
      | none => none
      | some ts =>
        if flag = false ∧ se = none then specDualScan rest flag (some ts) sl pe pl
        else specDualScan rest flag se sl (some ts) pl
    else if startsWith "latest=" f then
      match parse_timestamp (afterEq f).data with
      | none => none
      | some ts =>
        if flag = false ∧ sl = none then specDualScan rest true se (some ts) pe pl
        else specDualScan rest flag se sl pe (some ts)
    else if ¬ f.data.contains '=' then
      match parse_timestamp f.data with
      | some ts => (specDualScan rest flag se sl pe pl).map fun x => (x.1, ts :: x.2)
      | none => specDualScan rest flag se sl pe pl
    else specDualScan rest flag se sl pe pl

/-- After the scan, the first buffered timestamp becomes `start_time`, the
second becomes `stop_time`, further ones are ignored. -/
def specDualWindows (fields : List String) : Option DualWindow :=
  (specDualScan fields false none none none none).map fun x =>
    ⟨x.2.get? 0, x.1.1, x.1.2.1, x.2.get? 1, x.1.2.2.1, x.1.2.2.2⟩

/-- Correspondence between the code's scan state and the spec scan's
output. -/
def ScanAgrees (base : List DateTime) (o1 : Option DualState)
    (o2 : Option ((Option DateTime × Option DateTime × Option DateTime × Option DateTime) ×
      List DateTime)) : Prop :=
  match o1, o2 with
  | none, none => True
  | some st, some x =>
      st.start_earliest = x.1.1 ∧ st.start_latest = x.1.2.1 ∧
      st.stop_earliest = x.1.2.2.1 ∧ st.stop_latest = x.1.2.2.2 ∧
      st.bare_timestamps = base ++ x.2
  | _, _ => False

theorem ScanAgrees_bare (base : List DateTime) (ts : DateTime) (o1 : Option DualState)
    (o2 : Option ((Option DateTime × Option DateTime × Option DateTime × Option DateTime) ×
      List DateTime)) (h : ScanAgrees (base ++ [ts]) o1 o2) :
    ScanAgrees base o1 (o2.map fun x => (x.1, ts :: x.2)) := by
  cases o1 with
  | none =>
    cases o2 with
    | none => exact True.intro
    | some x => exact (h : False).elim
  | some st =>
    cases o2 with
    | none => exact (h : False).elim
    | some x =>
      obtain ⟨h1, h2, h3, h4, h5⟩ := h
      exact ⟨h1, h2, h3, h4, by rw [h5, List.append_assoc]; rfl⟩

theorem dual_scan_agrees (fields : List String) :
    ∀ st : DualState,
      ScanAgrees st.bare_timestamps (List.foldlM dual_step st fields)
        (specDualScan fields st.seen_start_window st.start_earliest st.start_latest
          st.stop_earliest st.stop_latest) := by
  induction fields with
  | nil =>
    intro st
    simp [ScanAgrees, List.foldlM, specDualScan]
  | cons f rest ih =>
    intro st
    rw [List.foldlM_cons]
    unfold dual_step
    rw [specDualScan]
    by_cases h1 : startsWith "earliest=" f = true
    · rw [if_pos h1, if_pos h1]
      cases hts : parse_timestamp (afterEq f).data with
      | none => simp [ScanAgrees]
      | some ts =>
        simp only [Option.map_some']
        by_cases hc : st.seen_start_window = false ∧ st.start_earliest = none
        · rw [if_pos hc, if_pos hc]
          exact ih { st with start_earliest := some ts }
        · rw [if_neg hc, if_neg hc]
          exact ih { st with stop_earliest := some ts }
    · rw [if_neg h1, if_neg h1]
      by_cases h2 : startsWith "latest=" f = true
      · rw [if_pos h2, if_pos h2]
        cases hts : parse_timestamp (afterEq f).data with
        | none => simp [ScanAgrees]
        | some ts =>
          simp only [Option.map_some']
          by_cases hc : st.seen_start_window = false ∧ st.start_latest = none
          · rw [if_pos hc, if_pos hc]
            exact ih { st with start_latest := some ts, seen_start_window := true }
          · rw [if_neg hc, if_neg hc]
            exact ih { st with stop_latest := some ts }
      · rw [if_neg h2, if_neg h2]
        by_cases hb : f ≠ "" ∧ ¬ f.data.contains '='
        · rw [if_pos hb, if_pos hb.2]
          cases hts : parse_timestamp f.data with
          | none => exact ih st
          | some ts =>
            exact ScanAgrees_bare st.bare_timestamps ts _ _
              (ih { st with bare_timestamps := st.bare_timestamps ++ [ts] })
        · rw [if_neg hb]
          by_cases hcont : f.data.contains '=' = true
          · rw [if_neg (not_not_intro hcont)]
            exact ih st
          · rw [if_pos hcont]
            have hfe : f = "" := by
              by_contra hne
              exact hb ⟨hne, hcont⟩
            subst hfe
            rw [show parse_timestamp ("" : String).data = none from rfl]
            exact ih st

/-- C2: `_parse_dual_time_windows` implements exactly the scan the claim
describes — `earliest=` goes to `start_earliest` iff the flag is unset and
`start_earliest` is unset (otherwise to `stop_earliest`), `latest=` goes to
`start_latest` and raises the flag iff the flag is unset and `start_latest`
is unset (otherwise to `stop_latest`), bare parseable timestamps are
buffered in order, and after the scan the first becomes `start_time`, the
second `stop_time`, the rest being ignored. -/
theorem c2_dual_window_algorithm :
    ∀ fields : List String, parse_dual_time_windows fields = specDualWindows fields := by
  intro fields
  have h := dual_scan_agrees fields ⟨none, none, none, none, false, []⟩
  unfold parse_dual_time_windows specDualWindows
  cases hfold : List.foldlM dual_step ⟨none, none, none, none, false, []⟩ fields with
  | none =>
    cases hspec : specDualScan fields false none none none none with
    | none => rfl
    | some x => rw [hfold, hspec] at h; exact (h : False).elim
  | some st =>
    cases hspec : specDualScan fields false none none none none with
    | none => rw [hfold, hspec] at h; exact (h : False).elim
    | some x =>
      rw [hfold, hspec] at h
      obtain ⟨hse, hsl, hpe, hpl, hbare⟩ := h
      simp only [Option.map_some', Option.some.injEq]
      rw [hse, hsl, hpe, hpl, hbare]
      rfl

/-! ## C7: DEVICE_UPDATED name override -/

/-- A field carrying a literal `name=` key (what the claim calls a `name=`
key-value field). -/
def hasNameKeyField (fs : List String) : Bool :=
  fs.any fun f => startsWith "name=" f

/-- C7 (counterexample): a bare field `name` (no `=`) is not a `name=`
key-value field, yet on a DEVICE_UPDATED line it overrides the old quoted
name — the record's name becomes `"name"` instead of `"Old"` — refuting
"if no `name=` key-value field appears in fields[4:], the old name is the
final name". -/
theorem c7_counterexample :
    hasNameKeyField ["name"] = false ∧
    parse_quoted_string "\"Old\"" = "Old" ∧
    (parse_line ["2024-01-15T10:30:00.000Z", "DEVICE_UPDATED", "uuid-1", "\"Old\"", "name"]).map
        Row.name = some (some "name") ∧
    ("name" : String) ≠ "Old" :=
  ⟨by decide, by decide, by decide, by decide⟩

/-- The fields whose parsed key (text before the first `=`, or the whole
field when it has no `=`) is `name`. -/
def nameKeyFields (fs : List String) : List String :=
  fs.filter fun f => (parse_key_value f).1 == "name"

theorem device_updated_step_name_key (r : Row) (f : String)
    (hk : (parse_key_value f).1 = "name") :
    device_updated_step r f = some { r with name := some (parse_quoted_string f) } := by
  unfold device_updated_step
  dsimp only
  rw [if_pos hk]

theorem device_updated_step_other_key (r r1 : Row) (f : String)
    (hk : (parse_key_value f).1 ≠ "name") (h : device_updated_step r f = some r1) :
    r1.name = r.name := by
  unfold device_updated_step at h
  dsimp only at h
  rw [if_neg hk] at h
  split_ifs at h
  all_goals try (simp only [Option.some.injEq] at h; subst h; rfl)
  cases hts : parse_timestamp (parse_key_value f).2.data with
  | none => rw [hts] at h; simp at h
  | some ts =>
    rw [hts] at h
    simp only [Option.map_some', Option.some.injEq] at h
    subst h; rfl

theorem foldlM_updated_name (fs : List String) :
    ∀ r r1 : Row, List.foldlM device_updated_step r fs = some r1 →
      r1.name = (match (nameKeyFields fs).getLast? with
        | none => r.name
        | some f => some (parse_quoted_string f)) := by
  induction fs with
  | nil =>
    intro r r1 h
    rw [List.foldlM_nil] at h
    exact congrArg Row.name (Option.some.inj h).symm
  | cons f fs ih =>
    intro r r1 h
    rw [List.foldlM_cons] at h
    cases hstep : device_updated_step r f with
    | none => rw [hstep] at h; simp at h
    | some r2 =>
      rw [hstep] at h
      have h2 : List.foldlM device_updated_step r2 fs = some r1 := h
      have ihr := ih r2 r1 h2
      by_cases hk : (parse_key_value f).1 = "name"
      · have hr2 : r2.name = some (parse_quoted_string f) := by
          rw [device_updated_step_name_key r f hk] at hstep
          exact congrArg Row.name (Option.some.inj hstep).symm
        have hfilter : nameKeyFields (f :: fs) = f :: nameKeyFields fs := by
          simp only [nameKeyFields, List.filter_cons]
          simp [hk]
        rw [hfilter]
        cases hlast : (nameKeyFields fs).getLast? with
        | none =>
          have hnil : nameKeyFields fs = [] := List.getLast?_eq_none_iff.mp hlast
          rw [hnil]
          simp only [List.getLast?_singleton]
          simp only [hlast] at ihr
          rw [ihr]
          exact hr2
        | some g =>
          have hne : (f :: nameKeyFields fs).getLast? = some g := by
            rw [show f :: nameKeyFields fs = [f] ++ nameKeyFields fs from rfl,
              List.getLast?_append, hlast]
            rfl
          rw [hne]
          simp only [hlast] at ihr
          exact ihr
      · have hr2 : r2.name = r.name := device_updated_step_other_key r r2 f hk hstep
        have hfilter : nameKeyFields (f :: fs) = nameKeyFields fs := by
          simp only [nameKeyFields, List.filter_cons]
          simp [hk]
        rw [hfilter]
        cases hlast : (nameKeyFields fs).getLast? with
        | none =>
          simp only [hlast] at ihr
          exact ihr.trans hr2
        | some g =>
          simp only [hlast] at ihr
          exact ihr

/-- C7 (amended): on a DEVICE_UPDATED line the name is initialized from
quoted-string extraction of `fields[3]` and overridden by the LAST field of
`fields[4:]` whose parsed key is `name` — that is, a `name=`-keyed field or
a bare field that is literally `name` — via quoted-string extraction of the
whole field; when no such field exists the old name stands. -/
theorem c7_amended (fields : List String) (f3 : String) (row : Row)
    (h1 : fields.get? 1 = some "DEVICE_UPDATED") (h3 : fields.get? 3 = some f3)
    (h : parse_line fields = some row) :
    row.name =
      some (parse_quoted_string (((nameKeyFields (fields.drop 4)).getLast?).getD f3)) := by
  unfold parse_line at h
  cases h0 : fields.get? 0 with
  | none => simp only [h0] at h; exact Option.noConfusion h
  | some f0 =>
  simp only [h0] at h
  simp only [h1] at h
  cases hts : parse_timestamp f0.data with
  | none => simp only [hts] at h; exact Option.noConfusion h
  | some lt =>
  simp only [hts] at h
  unfold dispatch at h
  rw [if_neg (by decide : ¬("DEVICE_UPDATED" = "DEVICE_ADDED")), if_pos rfl] at h
  cases h2 : fields.get? 2 with
  | none => simp only [h2] at h; exact Option.noConfusion h
  | some i =>
  simp only [h2] at h
  simp only [h3] at h
  have hname := foldlM_updated_name (fields.drop 4) _ _ h
  cases hlast : (nameKeyFields (fields.drop 4)).getLast? with
  | none => simp only [hlast] at hname; exact hname
  | some g => simp only [hlast] at hname; exact hname

/-- C7 (witness): the amended theorem at a concrete DEVICE_UPDATED line
whose `name="New"` field overrides the old name. -/
theorem c7_witness :
    ({ blankRow ⟨2024, 1, 15, 10, 30, 0, 0, some 0⟩ "DEVICE_UPDATED" with
        id := some "u1", name := some "New" } : Row).name =
      some (parse_quoted_string
        (((nameKeyFields
            (["2024-01-15T10:30:00.000Z", "DEVICE_UPDATED", "u1", "\"Old\"",
              "name=\"New\""].drop 4)).getLast?).getD "\"Old\"")) :=
  c7_amended
    ["2024-01-15T10:30:00.000Z", "DEVICE_UPDATED", "u1", "\"Old\"", "name=\"New\""]
    "\"Old\""
    { blankRow ⟨2024, 1, 15, 10, 30, 0, 0, some 0⟩ "DEVICE_UPDATED" with
        id := some "u1", name := some "New" }
    (by decide) (by decide) (by decide)

/-! ## C8: fail-fast on mandatory timestamps -/

theorem device_updated_step_effective_none (r : Row) (f : String)
    (hkey : (parse_key_value f).1 = "effective")
    (hbadts : parse_timestamp (parse_key_value f).2.data = none) :
    device_updated_step r f = none := by
  unfold device_updated_step
  dsimp only
  rw [if_neg (by rw [hkey]; decide), if_neg (by rw [hkey]; decide),
    if_neg (by rw [hkey]; decide), if_neg (by rw [hkey]; decide),
    if_neg (by rw [hkey]; decide), if_neg (by rw [hkey]; decide),
    if_pos hkey, hbadts]
  rfl

/-- C8: if a non-skipped line's `fields[0]` does not parse as a timestamp,
or a DEVICE_UPDATED line carries an `effective=`-keyed field whose value
does not parse, the error aborts the whole file: `parse_log` returns no
record sequence at all. -/
theorem c8_fail_fast (ls : List String) (l : String) (hmem : l ∈ ls)
    (hkeep : rstripNL l ≠ "" ∧ ¬ (splitTab (rstripNL l)).length < 2)
    (hbad :
      (∃ f0, (splitTab (rstripNL l)).get? 0 = some f0 ∧ parse_timestamp f0.data = none) ∨
      ((splitTab (rstripNL l)).get? 1 = some "DEVICE_UPDATED" ∧
        ∃ f ∈ (splitTab (rstripNL l)).drop 4,
          (parse_key_value f).1 = "effective" ∧
          parse_timestamp (parse_key_value f).2.data = none)) :
    parse_log ls = none := by
  have hline : parse_line (splitTab (rstripNL l)) = none := by
    rcases hbad with ⟨f0, hf0, hf0bad⟩ | ⟨hdu, f, hfmem, hkey, hbadts⟩
    · unfold parse_line
      cases hg1 : (splitTab (rstripNL l)).get? 1 with
      | none => simp only [hf0, hg1]
      | some f1 => simp only [hf0, hg1, hf0bad]
    · unfold parse_line
      cases hg0 : (splitTab (rstripNL l)).get? 0 with
      | none => simp only [hg0]
      | some f0 =>
        cases hts : parse_timestamp f0.data with
        | none => simp only [hg0, hdu, hts]
        | some lt =>
          simp only [hg0, hdu, hts]
          unfold dispatch
          rw [if_neg (by decide : ¬("DEVICE_UPDATED" = "DEVICE_ADDED")), if_pos rfl]
          cases hg2 : (splitTab (rstripNL l)).get? 2 with
          | none => simp only [hg2]
          | some i =>
            cases hg3 : (splitTab (rstripNL l)).get? 3 with
            | none => simp only [hg2, hg3]
            | some f3 =>
              simp only [hg2, hg3]
              exact optFoldl_none_of_mem device_updated_step _ f hfmem
                (fun r => device_updated_step_effective_none r f hkey hbadts) _
  induction ls with
  | nil => cases hmem
  | cons a rest ih =>
    rcases List.mem_cons.mp hmem with hla | hmem2
    · subst hla
      simp only [parse_log]
      rw [if_neg hkeep.1, if_neg hkeep.2, hline]
    · have hres := ih hmem2
      simp only [parse_log]
      by_cases ha1 : rstripNL a = ""
      · rw [if_pos ha1]; exact hres
      · rw [if_neg ha1]
        by_cases ha2 : (splitTab (rstripNL a)).length < 2
        · rw [if_pos ha2]; exact hres
        · rw [if_neg ha2, hres]
          cases parse_line (splitTab (rstripNL a)) <;> rfl

/-- C8 (witness): the fail-fast theorem applied to a one-line file whose
log timestamp is malformed. -/
theorem c8_witness : parse_log ["garbage\tGLOBAL_NOTE\thello"] = none :=
  c8_fail_fast ["garbage\tGLOBAL_NOTE\thello"] "garbage\tGLOBAL_NOTE\thello"
    (by simp) ⟨by decide, by decide⟩
    (Or.inl ⟨"garbage", by decide, by decide⟩)

/-! ## C9: unquoted `name=` values keep the whole field text -/

/-- C9: a `name=` key-value field with no double quote makes
quoted-string extraction return its input unchanged, so DEVICE_ADDED and
DEVICE_UPDATED set the record's name to the entire field text, `name=`
prefix included. -/
theorem c9_unquoted_name (r : Row) (f t : String)
    (hf : f = "name=" ++ t)
    (hq : f.data.contains '"' = false) :
    parse_quoted_string f = f ∧
    device_added_step r f = { r with name := some f } ∧
    device_updated_step r f = some { r with name := some f } := by
  subst hf
  have hnotmem : '"' ∉ (("name=" ++ t) : String).data := by
    simpa using hq
  have hpqs : parse_quoted_string ("name=" ++ t) = "name=" ++ t := by
    unfold parse_quoted_string
    have hdrop : (("name=" ++ t) : String).data.dropWhile (fun c => c ≠ '"') = [] := by
      rw [List.dropWhile_eq_nil_iff]
      intro x hx
      simp only [decide_eq_true_eq]
      exact fun hxe => hnotmem (hxe ▸ hx)
    rw [hdrop]
  have hkv : (parse_key_value ("name=" ++ t)).1 = "name" := rfl
  refine ⟨hpqs, ?_, ?_⟩
  · unfold device_added_step
    dsimp only
    rw [if_pos hkv, hpqs]
  · unfold device_updated_step
    dsimp only
    rw [if_pos hkv, hpqs]

/-- C9 (witness): the unquoted-name theorem at the spec's example field
`name=Watch`. -/
theorem c9_witness :
    parse_quoted_string "name=Watch" = "name=Watch" ∧
    device_added_step (blankRow ⟨2024, 1, 15, 0, 0, 0, 0, none⟩ "DEVICE_ADDED")
        "name=Watch" =
      { blankRow ⟨2024, 1, 15, 0, 0, 0, 0, none⟩ "DEVICE_ADDED" with
          name := some "name=Watch" } ∧
    device_updated_step (blankRow ⟨2024, 1, 15, 0, 0, 0, 0, none⟩ "DEVICE_ADDED")
        "name=Watch" =
      some { blankRow ⟨2024, 1, 15, 0, 0, 0, 0, none⟩ "DEVICE_ADDED" with
          name := some "name=Watch" } :=
  c9_unquoted_name (blankRow ⟨2024, 1, 15, 0, 0, 0, 0, none⟩ "DEVICE_ADDED")
    "name=Watch" "Watch" (by decide) (by decide)
